import Mathlib

/-!
Shallow embedding of the `cargo-rustc-wrapper` crate (src/lib.rs, src/util.rs,
examples/c2rust-instrument.rs).

OS strings and paths are modelled as byte lists (`OsStr`); the process
environment is a map from variable names to OS strings; process effects
(spawning children, reading the filesystem) are modelled by explicit oracles
passed as arguments, and the global environment is threaded explicitly through
the functions that could in principle mutate it.
-/

/-- Bytes of an OS string (Rust `OsStr` / `OsString` / `PathBuf` on unix). -/
abbrev OsStr := List Nat

/-- The process environment: a lookup from variable name to OS-string value. -/
abbrev Env := String → Option OsStr

/-- UTF-8 encoding of one Unicode scalar value, as byte values. -/
def utf8EncodeNat (c : Nat) : List Nat :=
  if c < 0x80 then [c]
  else if c < 0x800 then [0xC0 + c / 64, 0x80 + c % 64]
  else if c < 0x10000 then [0xE0 + c / 4096, 0x80 + (c / 64) % 64, 0x80 + c % 64]
  else [0xF0 + c / 262144, 0x80 + (c / 4096) % 64, 0x80 + (c / 64) % 64, 0x80 + c % 64]

/-- The byte list of a Rust `String` literal viewed as an `OsStr`. -/
def osStrOfString (s : String) : OsStr :=
  s.data.flatMap (fun c => utf8EncodeNat c.toNat)

/-- Whether a byte is a UTF-8 continuation byte (`0x80..=0xBF`). -/
def isUtf8Cont (b : Nat) : Bool := 0x80 ≤ b && b < 0xC0

/-- UTF-8 decoding of a byte list to Unicode scalar values, rejecting exactly
the sequences Rust's `str::from_utf8` rejects (stray continuation bytes,
overlong encodings, surrogates, values above `0x10FFFF`, truncated tails). -/
def utf8Decode : List Nat → Option (List Nat)
  | [] => some []
  | b :: bs =>
    if b < 0x80 then (utf8Decode bs).map (b :: ·)
    else if b < 0xC2 then none
    else if b < 0xE0 then
      match bs with
      | b1 :: bs1 =>
        if isUtf8Cont b1 then (utf8Decode bs1).map (((b - 0xC0) * 64 + (b1 - 0x80)) :: ·)
        else none
      | [] => none
    else if b < 0xF0 then
      match bs with
      | b1 :: b2 :: bs2 =>
        if isUtf8Cont b1 && isUtf8Cont b2 then
          let c := (b - 0xE0) * 4096 + (b1 - 0x80) * 64 + (b2 - 0x80)
          if c < 0x800 then none
          else if 0xD800 ≤ c && c < 0xE000 then none
          else (utf8Decode bs2).map (c :: ·)
        else none
      | _ => none
    else if b < 0xF5 then
      match bs with
      | b1 :: b2 :: b3 :: bs3 =>
        if isUtf8Cont b1 && isUtf8Cont b2 && isUtf8Cont b3 then
          let c := (b - 0xF0) * 262144 + (b1 - 0x80) * 4096 + (b2 - 0x80) * 64 + (b3 - 0x80)
          if c < 0x10000 || 0x10FFFF < c then none
          else (utf8Decode bs3).map (c :: ·)
        else none
      | _ => none
    else none

/-- Rust's `OsString::into_string` on unix: succeeds exactly on valid UTF-8,
returning the decoded string. -/
def osStrIntoString (bs : OsStr) : Option String :=
  (utf8Decode bs).map (fun cs => String.mk (cs.map Char.ofNat))

/-- `util.rs` `EnvVar<V>`: a typed (key, value) environment binding.
Equality (the derived `PartialEq`) compares both key and value. -/
structure EnvVar (V : Type) where
  key : String
  value : V
deriving DecidableEq, Repr

/-- Conversion of a binding value to an OS string (Rust `V: AsRef<OsStr>`). -/
class AsOsStr (V : Type) where
  toOs : V → OsStr

instance : AsOsStr OsStr := ⟨id⟩

instance : AsOsStr String := ⟨osStrOfString⟩

/-- `util.rs` `EnvVar::get_os`: read a raw OS-string binding from the
environment; `none` when the variable is unset. -/
def EnvVar.get_os (env : Env) (key : String) : Option (EnvVar OsStr) :=
  (env key).map (fun v => ⟨key, v⟩)

/-- `util.rs` `EnvVar::get_path`: read a path-valued binding (`PathBuf::from`
of an `OsString` is the identity on the underlying bytes). -/
def EnvVar.get_path (env : Env) (key : String) : Option (EnvVar OsStr) :=
  (EnvVar.get_os env key).map (fun v => ⟨v.key, v.value⟩)

/-- `util.rs` `EnvVar::set`: process-global environment mutation
(`env::set_var`), modelled as an update of the threaded environment. -/
def EnvVar.set [AsOsStr V] (v : EnvVar V) (env : Env) : Env :=
  fun k => if k = v.key then some (AsOsStr.toOs v.value) else env k

/-- `util.rs` `os_str_from_bytes`: on unix an `O(1)` unchecked conversion,
elsewhere checked conversion through UTF-8 that fails on invalid bytes. -/
def os_str_from_bytes (isUnix : Bool) (bytes : OsStr) : Except String OsStr :=
  if isUnix then .ok bytes
  else if (utf8Decode bytes).isSome then .ok bytes
  else .error "invalid utf-8 sequence"

/-- A child-process description (Rust `std::process::Command`): program path,
arguments, and the environment entries explicitly attached to the child. -/
structure Cmd where
  program : OsStr
  args : List OsStr
  extraEnv : List (String × OsStr)
deriving DecidableEq, Repr

/-- `util.rs` `EnvVar::set_on`: attach the binding to the about-to-be-spawned
child's command object (`Command::env`), not to the calling process. -/
def EnvVar.set_on [AsOsStr V] (v : EnvVar V) (cmd : Cmd) : Cmd :=
  { cmd with extraEnv := cmd.extraEnv ++ [(v.key, AsOsStr.toOs v.value)] }

/-- Rust `std::process::ExitStatus`: `code = none` models death by signal. -/
structure ExitStatus where
  code : Option Int
deriving DecidableEq, Repr

/-- `ExitStatus::success`: exited normally with code 0. -/
def ExitStatus.success (s : ExitStatus) : Bool := s.code = some 0

/-- lib.rs `exit_with_status`: the code passed to `process::exit`, namely
`status.code().unwrap_or(1)`. -/
def exit_with_status (s : ExitStatus) : Int := s.code.getD 1

/-- Rendering of an exit status for the diagnostic message (Rust `Display`). -/
def statusString (s : ExitStatus) : String :=
  match s.code with
  | some k => "exit status: " ++ toString k
  | none => "terminated by signal"

/-- Rendering of a command for the diagnostic message (Rust `Debug`). -/
def cmdString (cmd : Cmd) : String :=
  String.intercalate " " ((cmd.program :: cmd.args).map (fun a => toString (repr a)))

/-- The diagnostic `WrappedCommand::run` prints on a failing child:
`error ({status}) running: {cmd:?}`. -/
def runDiagnostic (cmd : Cmd) (st : ExitStatus) : String :=
  "error (" ++ statusString st ++ ") running: " ++ cmdString cmd

/-- The observable outcome of `WrappedCommand::run`: a configure-closure error
or a spawn/wait error returned to the caller, normal completion, or
termination of the current host process with an exit code (after printing a
diagnostic). -/
inductive RunResult where
  | configErr (e : String)
  | spawnErr (cmd : Cmd) (e : String)
  | completed (cmd : Cmd)
  | exited (cmd : Cmd) (diag : String) (code : Int)
deriving DecidableEq, Repr

/-- The command a `RunResult` actually spawned (or tried to), if any. -/
def RunResult.spawnedCmd : RunResult → Option Cmd
  | .configErr _ => none
  | .spawnErr cmd _ => some cmd
  | .completed cmd => some cmd
  | .exited cmd _ _ => some cmd

/-- lib.rs `WrappedCommand`: a program path resolved at construction. -/
structure WrappedCommand where
  path : OsStr
deriving DecidableEq, Repr

/-- `WrappedCommand::new`: the override environment variable's value if set,
else the bare program name. -/
def WrappedCommand.new (program : OsStr) (env_var : String) (env : Env) : WrappedCommand :=
  ⟨((env env_var).map id).getD program⟩

/-- `WrappedCommand::command`: a fresh `Command` for the resolved path. -/
def WrappedCommand.command (w : WrappedCommand) : Cmd :=
  { program := w.path, args := [], extraEnv := [] }

/-- `WrappedCommand::run`: build the command, let the caller configure it
(the closure may fail, which propagates without spawning), spawn and wait via
the `status` oracle, and on a non-success status print a diagnostic and
terminate the current process via `exit_with_status`. -/
def WrappedCommand.run (w : WrappedCommand) (f : Cmd → Except String Cmd)
    (status : Cmd → Except String ExitStatus) : RunResult :=
  match f w.command with
  | .error e => .configErr e
  | .ok cmd =>
    match status cmd with
    | .error e => .spawnErr cmd e
    | .ok st =>
      if st.success then .completed cmd
      else .exited cmd (runDiagnostic cmd st) (exit_with_status st)

/-- `WrappedCommand::cargo`: program `cargo`, override variable `CARGO`. -/
def WrappedCommand.cargo (env : Env) : WrappedCommand :=
  WrappedCommand.new (osStrOfString "cargo") "CARGO" env

/-- `WrappedCommand::rustc`: program `rustc`, override variable `RUSTC`. -/
def WrappedCommand.rustc (env : Env) : WrappedCommand :=
  WrappedCommand.new (osStrOfString "rustc") "RUSTC" env

/-- Rust `std::process::Output`, restricted to the fields the code reads:
the exit status and the captured standard output bytes. -/
structure CmdOutput where
  status : ExitStatus
  stdout : List Nat
deriving DecidableEq, Repr

/-- Rust `u8::is_ascii_whitespace`: space, tab, newline, form feed, carriage
return. -/
def isAsciiWhitespaceByte (b : Nat) : Bool :=
  b = 32 || b = 9 || b = 10 || b = 12 || b = 13

/-- Rust `slice::split`: subslices separated by bytes matching `p`; an empty
slice yields one empty subslice, so the result is never empty. -/
def splitBytes (p : Nat → Bool) : List Nat → List (List Nat)
  | [] => [[]]
  | b :: bs =>
    if p b then [] :: splitBytes p bs
    else
      match splitBytes p bs with
      | [] => [[b]]
      | g :: gs => (b :: g) :: gs

/-- The probe command `resolve_sysroot` runs: the resolved `rustc` with the
fixed arguments `--print sysroot` and no extra environment. -/
def rustcSysrootProbe (env : Env) : Cmd :=
  { program := (WrappedCommand.rustc env).path
    args := [osStrOfString "--print", osStrOfString "sysroot"]
    extraEnv := [] }

/-- lib.rs `resolve_sysroot`: run `rustc --print sysroot` (via the `output`
oracle), take the first whitespace-delimited token of stdout by a byte-level
split, convert it with `os_str_from_bytes`, and require (via the `is_dir`
oracle) that the resulting path is an existing directory. The child's exit
status is never consulted. -/
def resolve_sysroot (isUnix : Bool) (env : Env)
    (output : Cmd → Except String CmdOutput) (is_dir : OsStr → Bool) :
    Except String OsStr :=
  match output (rustcSysrootProbe env) with
  | .error e => .error ("could not invoke `rustc` to find rust sysroot: " ++ e)
  | .ok out =>
    let path := ((splitBytes isAsciiWhitespaceByte out.stdout).head?).getD []
    match os_str_from_bytes isUnix path with
    | .error e => .error e
    | .ok path =>
      if is_dir path then .ok path
      else .error ("invalid sysroot (not a dir): " ++ (osStrIntoString path).getD "")

/-- lib.rs constant `RUSTC_WRAPPER_VAR`. -/
def RUSTC_WRAPPER_VAR : String := "RUSTC_WRAPPER"

/-- lib.rs constant `SYSROOT_VAR`. -/
def SYSROOT_VAR : String := "RUST_SYSROOT"

/-- lib.rs constant `TOOLCHAIN_VAR`. -/
def TOOLCHAIN_VAR : String := "RUSTUP_TOOLCHAIN"

/-- A `toml_edit` item as far as the code inspects it: indexing a missing key
(or indexing into a non-table) yields the absent item, and `as_str` yields a
string only for a string item. -/
inductive TomlItem where
  | missing
  | str (s : String)
  | table (entries : List (String × TomlItem))
  | other

/-- `toml_edit` `Index<&str>`: look a key up in a table; anything else (a
missing item, a string, a non-table value) indexes to the absent item. -/
def TomlItem.index (i : TomlItem) (k : String) : TomlItem :=
  match i with
  | .table es => (es.lookup k).getD .missing
  | _ => .missing

/-- `toml_edit` `Item::as_str`. -/
def TomlItem.asStr : TomlItem → Option String
  | .str s => some s
  | _ => none

/-- lib.rs `CargoWrapper`: the package-manager role's state. -/
structure CargoWrapper where
  rustc_wrapper : EnvVar OsStr
  sysroot : EnvVar OsStr
  toolchain : Option (EnvVar String)
deriving DecidableEq, Repr

/-- lib.rs `CargoWrapper::new`: resolve the sysroot (propagating its failure)
and store it under `SYSROOT_VAR`; no toolchain is selected yet. -/
def CargoWrapper.new (isUnix : Bool) (env : Env)
    (output : Cmd → Except String CmdOutput) (is_dir : OsStr → Bool)
    (rustc_wrapper : EnvVar OsStr) : Except String CargoWrapper :=
  match resolve_sysroot isUnix env output is_dir with
  | .error e => .error e
  | .ok path => .ok ⟨rustc_wrapper, ⟨SYSROOT_VAR, path⟩, none⟩

/-- lib.rs `CargoWrapper::set_rustup_toolchain`: parse the
`rust-toolchain.toml` text (the `parse` oracle models `toml_edit`'s document
parser; a syntax error propagates), read `doc["toolchain"]["channel"]`, and
store it under `TOOLCHAIN_VAR` when it is a string; otherwise leave the
selection unchanged. -/
def CargoWrapper.set_rustup_toolchain (parse : String → Except String TomlItem)
    (w : CargoWrapper) (rust_toolchain_toml_str : String) : Except String CargoWrapper :=
  match parse rust_toolchain_toml_str with
  | .error e => .error e
  | .ok doc =>
    match ((doc.index "toolchain").index "channel").asStr with
    | some toolchain => .ok { w with toolchain := some ⟨TOOLCHAIN_VAR, toolchain⟩ }
    | none => .ok w

/-- lib.rs `CargoWrapper::run_cargo`: run the resolved `cargo`, attaching the
toolchain binding (when selected) to the child command before the caller's
configure closure runs. The global environment is threaded and returned
so its (non-)mutation is observable. -/
def CargoWrapper.run_cargo (w : CargoWrapper) (env : Env)
    (f : Cmd → Except String Cmd) (status : Cmd → Except String ExitStatus) :
    RunResult × Env :=
  ((WrappedCommand.cargo env).run
    (fun cmd =>
      let cmd :=
        match w.toolchain with
        | some toolchain => toolchain.set_on cmd
        | none => cmd
      f cmd)
    status, env)

/-- lib.rs `CargoWrapper::run_cargo_with_rustc_wrapper`: as `run_cargo`, but
first attaching the `RUSTC_WRAPPER` and `RUST_SYSROOT` bindings to the child
command. -/
def CargoWrapper.run_cargo_with_rustc_wrapper (w : CargoWrapper) (env : Env)
    (f : Cmd → Except String Cmd) (status : Cmd → Except String ExitStatus) :
    RunResult × Env :=
  w.run_cargo env
    (fun cmd => f (w.sysroot.set_on (w.rustc_wrapper.set_on cmd)))
    status

/-- lib.rs `os_string_utf8_error`: the error for a non-UTF-8 OS string. -/
def os_string_utf8_error (s : OsStr) : String :=
  "non-UTF-8 OsString: " ++ toString (repr s)

/-- The error message `RustcWrapper::new` produces when `SYSROOT_VAR` is
unset: it names the missing variable. -/
def sysrootMissingError : String :=
  "the `cargo` wrapper should have set `$" ++ SYSROOT_VAR ++ "` for the `rustc` wrapper"

/-- lib.rs `RustcWrapper`: the compiler-driver role's state. -/
structure RustcWrapper where
  args : List OsStr
  sysroot : EnvVar OsStr
deriving DecidableEq, Repr

/-- lib.rs `RustcWrapper::new`: the process arguments minus the program name,
plus the `SYSROOT_VAR` binding, which must be present — its absence is a
contract-violation error naming the variable, never defaulted. -/
def RustcWrapper.new (env : Env) (argv : List OsStr) : Except String RustcWrapper :=
  match EnvVar.get_path env SYSROOT_VAR with
  | none => .error sysrootMissingError
  | some sysroot => .ok ⟨argv.drop 1, sysroot⟩

/-- lib.rs `RustcWrapper::is_primary_package`: whether `CARGO_PRIMARY_PACKAGE`
is present in the environment; its value is never inspected. -/
def RustcWrapper.is_primary_package (_w : RustcWrapper) (env : Env) : Bool :=
  (EnvVar.get_os env "CARGO_PRIMARY_PACKAGE").isSome

/-- lib.rs `RustcWrapper::rustc_args_os`: the stored arguments with
`--sysroot <sysroot>` appended; never fails. -/
def RustcWrapper.rustc_args_os (w : RustcWrapper) : List OsStr :=
  w.args ++ [osStrOfString "--sysroot", w.sysroot.value]

/-- The `map(OsString::into_string).collect::<Result<Vec<_>, _>>()` step of
`rustc_args`: convert each OS string in order, short-circuiting with
`os_string_utf8_error` on the first non-UTF-8 one. -/
def collectUtf8Strings : List OsStr → Except String (List String)
  | [] => .ok []
  | arg :: rest =>
    match osStrIntoString arg with
    | none => .error (os_string_utf8_error arg)
    | some s =>
      match collectUtf8Strings rest with
      | .error e => .error e
      | .ok ss => .ok (s :: ss)

/-- lib.rs `RustcWrapper::rustc_args`: convert each stored argument and the
sysroot path to UTF-8 strings (failing with `os_string_utf8_error` on a
non-UTF-8 one), then append `--sysroot <sysroot>`. -/
def RustcWrapper.rustc_args (w : RustcWrapper) : Except String (List String) :=
  match collectUtf8Strings w.args with
  | .error e => .error e
  | .ok args =>
    match osStrIntoString w.sysroot.value with
    | none => .error (os_string_utf8_error w.sysroot.value)
    | some sysroot => .ok (args ++ ["--sysroot", sysroot])

/-- The two invocation roles. -/
inductive Role where
  | compilerDriver
  | packageManager
deriving DecidableEq, Repr

/-- The role `wrap_cargo_or_rustc` computes, as a pure function of the own
executable path and the single `RUSTC_WRAPPER` variable: the compiler-driver
role exactly when the freshly read binding equals (key and value) the binding
for the current executable. -/
def wrapRole (env : Env) (current_exe : OsStr) : Role :=
  let own_rustc_wrapper : EnvVar OsStr := ⟨RUSTC_WRAPPER_VAR, current_exe⟩
  let current_rustc_wrapper := EnvVar.get_path env own_rustc_wrapper.key
  if current_rustc_wrapper = some own_rustc_wrapper then .compilerDriver
  else .packageManager

/-- Which wrapper `wrap_cargo_or_rustc` constructed and dispatched to. -/
inductive Dispatched where
  | rustc (w : RustcWrapper)
  | cargo (w : CargoWrapper)
deriving DecidableEq, Repr

/-- lib.rs `wrap_cargo_or_rustc`: read the own executable path, compare the
`RUSTC_WRAPPER` binding against it (key and value), and run either the
`rustc`-wrapper construction or the `cargo`-wrapper construction (which
receives the own binding to pass down). -/
def wrap_cargo_or_rustc (isUnix : Bool) (env : Env) (current_exe : OsStr)
    (argv : List OsStr) (output : Cmd → Except String CmdOutput)
    (is_dir : OsStr → Bool) : Except String Dispatched :=
  let own_rustc_wrapper : EnvVar OsStr := ⟨RUSTC_WRAPPER_VAR, current_exe⟩
  match wrapRole env current_exe with
  | .compilerDriver => (RustcWrapper.new env argv).map .rustc
  | .packageManager =>
    (CargoWrapper.new isUnix env output is_dir own_rustc_wrapper).map .cargo

/-- A filesystem path at the component level (examples/c2rust-instrument.rs
works with paths only through `file_name`, `parent` and joining a file name,
so components suffice). -/
abbrev FPath := List String

/-- Rust `Path::file_name`: the last component, unless it is `..` or the path
is empty. -/
def FPath.fileName (p : FPath) : Option String :=
  match p.getLast? with
  | some s => if s = ".." then none else some s
  | none => none

/-- Rust `Path::parent`: the path minus its last component; `none` for the
empty path. -/
def FPath.parentDir (p : FPath) : Option FPath :=
  if p.isEmpty then none else some p.dropLast

/-- The filesystem as the example observes it: file contents by path and a
directory-existence predicate. -/
structure FS where
  file : FPath → Option (List Nat)
  dirs : FPath → Bool

/-- `fs_err::create_dir_all`: the directory and all its ancestors exist
afterwards; nothing else changes. -/
def FS.createDirAll (fs : FS) (d : FPath) : FS :=
  { fs with dirs := fun q => (List.isPrefixOf q d) || fs.dirs q }

/-- Writing a file: contents replaced (or created) at the path. -/
def FS.writeFile (fs : FS) (p : FPath) (data : List Nat) : FS :=
  { fs with file := fun q => if q = p then some data else fs.file q }

/-- Removing a file. -/
def FS.removeFile (fs : FS) (p : FPath) : FS :=
  { fs with file := fun q => if q = p then none else fs.file q }

/-- `fs_err::rename`: the destination now holds the source's contents, the
source is gone (atomic replace of any pre-existing destination). -/
def FS.rename (fs : FS) (src dst : FPath) : FS :=
  { fs with
    file := fun q =>
      if q = dst then fs.file src
      else if q = src then none
      else fs.file q }

/-- examples/c2rust-instrument.rs `MetadataFile`: the final path and the
temporary sibling file's path. -/
structure MetadataFile where
  path : FPath
  tmpPath : FPath
deriving DecidableEq, Repr

/-- examples/c2rust-instrument.rs `MetadataFile::new`: require a file-name
component, create the parent directory (falling back to `.` when there is no
parent), and create an empty temporary file next to the final path named
`<file_name>.<random>.new` (the `rand` argument models `tempfile`'s fresh
random infix; creation fails rather than clobbering an existing file). The
final path itself is not touched. -/
def MetadataFile.new (fs : FS) (path : FPath) (rand : String) :
    Except String (FS × MetadataFile) :=
  match path.fileName with
  | none => .error "--metadata has no file name"
  | some metadata_file_name =>
    let metadata_dir := path.parentDir
    let fs :=
      match metadata_dir with
      | some d => fs.createDirAll d
      | none => fs
    let metadata_dir := metadata_dir.getD ["."]
    let tmpName := metadata_file_name ++ "." ++ rand ++ ".new"
    let tmp := metadata_dir ++ [tmpName]
    if (fs.file tmp).isSome then .error "create new (temp) metadata file"
    else .ok (fs.writeFile tmp [], ⟨path, tmp⟩)

/-- examples/c2rust-instrument.rs `MetadataFile::close`: rename the temporary
file over the final path when it is non-empty, else just discard it; a
missing temporary file is an I/O error. -/
def MetadataFile.close (fs : FS) (m : MetadataFile) : Except String FS :=
  match fs.file m.tmpPath with
  | none => .error "io error reading temp file metadata"
  | some contents =>
    if contents.length > 0 then .ok (fs.rename m.tmpPath m.path)
    else .ok (fs.removeFile m.tmpPath)

example : EnvVar.get_os (fun _ => none) "X" = none := by decide

example :
    (MetadataFile.new ⟨fun _ => none, fun _ => false⟩ ["a", "m"] "R").map
      (fun r => r.2) = .ok ⟨["a", "m"], ["a", "m.R.new"]⟩ := rfl

example :
    wrapRole (fun k => if k = "RUSTC_WRAPPER" then some [1, 2] else none) [1, 2] =
    .compilerDriver := by decide

example : wrapRole (fun _ => none) [1, 2] = .packageManager := by decide

example : splitBytes isAsciiWhitespaceByte [97, 98, 32, 99] = [[97, 98], [99]] := by decide

example : splitBytes isAsciiWhitespaceByte [] = [[]] := by decide

example :
    resolve_sysroot true (fun _ => none)
      (fun _ => .ok ⟨⟨some 0⟩, [47, 115, 10, 120]⟩) (fun p => p = [47, 115]) =
    .ok [47, 115] := rfl

example : utf8Decode [0xFF] = none := by decide

example : utf8Decode (osStrOfString "ab") = some [97, 98] := by decide

example : osStrIntoString (osStrOfString "ab") = some "ab" := by decide

/-- C1: for every executable path P, the dispatcher selects the
compiler-driver role (and runs the `rustc`-wrapper construction) exactly when
the `RUSTC_WRAPPER` variable holds exactly the current executable's own path;
for any other value, including unset, it selects the package-manager role,
the role being a function of the own path and that single variable with
binding equality comparing key and value. -/
theorem wrap_dispatch_role_correct (isUnix : Bool) (env : Env) (current_exe : OsStr)
    (argv : List OsStr) (output : Cmd → Except String CmdOutput) (is_dir : OsStr → Bool) :
    (wrapRole env current_exe = Role.compilerDriver ↔
      env RUSTC_WRAPPER_VAR = some current_exe) ∧
    (env RUSTC_WRAPPER_VAR = some current_exe →
      wrap_cargo_or_rustc isUnix env current_exe argv output is_dir =
        (RustcWrapper.new env argv).map Dispatched.rustc) ∧
    (env RUSTC_WRAPPER_VAR ≠ some current_exe →
      wrap_cargo_or_rustc isUnix env current_exe argv output is_dir =
        (CargoWrapper.new isUnix env output is_dir ⟨RUSTC_WRAPPER_VAR, current_exe⟩).map
          Dispatched.cargo) := by
  have hrole : wrapRole env current_exe = Role.compilerDriver ↔
      env RUSTC_WRAPPER_VAR = some current_exe := by
    unfold wrapRole EnvVar.get_path EnvVar.get_os
    cases h : env RUSTC_WRAPPER_VAR with
    | none => simp [h]
    | some v =>
      by_cases hv : v = current_exe <;> simp [h, hv, EnvVar.mk.injEq]
  refine ⟨hrole, ?_, ?_⟩
  · intro h
    unfold wrap_cargo_or_rustc
    rw [hrole.mpr h]
  · intro h
    have hpm : wrapRole env current_exe = Role.packageManager := by
      cases hr : wrapRole env current_exe
      · exact absurd (hrole.mp hr) h
      · rfl
    unfold wrap_cargo_or_rustc
    rw [hpm]

/-- Witness for C1 at concrete inputs: with `RUSTC_WRAPPER` bound to the own
path the role is the compiler-driver one, and with it unset the package
manager construction runs. -/
theorem wrap_dispatch_role_correct_witness :
    (wrapRole (fun k => if k = "RUSTC_WRAPPER" then some [7] else none) [7] =
      Role.compilerDriver) ∧
    (wrap_cargo_or_rustc true (fun _ => none) [7] [[9], [3]]
        (fun _ => Except.error "no rustc") (fun _ => false) =
      (CargoWrapper.new true (fun _ => none) (fun _ => Except.error "no rustc")
        (fun _ => false) ⟨RUSTC_WRAPPER_VAR, [7]⟩).map Dispatched.cargo) := by
  constructor
  · exact (wrap_dispatch_role_correct true
      (fun k => if k = "RUSTC_WRAPPER" then some [7] else none) [7] []
      (fun _ => Except.error "no rustc") (fun _ => false)).1.mpr (by decide)
  · exact (wrap_dispatch_role_correct true (fun _ => none) [7] [[9], [3]]
      (fun _ => Except.error "no rustc") (fun _ => false)).2.2 (by simp)

/-- C2: when the `RUST_SYSROOT` variable is absent, `RustcWrapper::new` fails
with an error naming that variable (the message contains it verbatim), so the
compiler-driver role never proceeds without the binding. -/
theorem rustc_wrapper_new_missing_sysroot (env : Env) (argv : List OsStr)
    (h : env SYSROOT_VAR = none) :
    RustcWrapper.new env argv = .error sysrootMissingError ∧
    (∃ pre post, sysrootMissingError = pre ++ SYSROOT_VAR ++ post) ∧
    (∀ w, RustcWrapper.new env argv ≠ .ok w) := by
  have herr : RustcWrapper.new env argv = .error sysrootMissingError := by
    simp [RustcWrapper.new, EnvVar.get_path, EnvVar.get_os, h]
  refine ⟨herr, ⟨"the `cargo` wrapper should have set `$",
    "` for the `rustc` wrapper", rfl⟩, ?_⟩
  intro w hw
  rw [herr] at hw
  exact Except.noConfusion hw

/-- Witness for C2: a concrete environment with `RUST_SYSROOT` unset. -/
theorem rustc_wrapper_new_missing_sysroot_witness :
    RustcWrapper.new (fun _ => none) [[1]] = .error sysrootMissingError :=
  (rustc_wrapper_new_missing_sysroot (fun _ => none) [[1]] rfl).1

/-- C3: `WrappedCommand::run` propagates a configure-closure failure without
consulting the spawn oracle; on a spawn that exits with non-zero code K it
ends as termination of the host process with code K and the diagnostic naming
the command and status, and with code 1 when no status code is available —
never as a returned error. -/
theorem wrapped_run_exit_semantics (w : WrappedCommand) (f : Cmd → Except String Cmd)
    (status : Cmd → Except String ExitStatus) :
    (∀ e, f w.command = .error e →
      (∀ status2, WrappedCommand.run w f status2 = .configErr e)) ∧
    (∀ cmd st k, f w.command = .ok cmd → status cmd = .ok st →
      st.code = some k → k ≠ 0 →
      WrappedCommand.run w f status = .exited cmd (runDiagnostic cmd st) k) ∧
    (∀ cmd st, f w.command = .ok cmd → status cmd = .ok st → st.code = none →
      WrappedCommand.run w f status = .exited cmd (runDiagnostic cmd st) 1) := by
  refine ⟨?_, ?_, ?_⟩
  · intro e he status2
    unfold WrappedCommand.run
    rw [he]
  · intro cmd st k hf hs hk hknz
    have hsb : st.success = false := by
      simp [ExitStatus.success, hk, hknz]
    simp [WrappedCommand.run, hf, hs, hsb, exit_with_status, hk]
  · intro cmd st hf hs hk
    have hsb : st.success = false := by
      simp [ExitStatus.success, hk]
    simp [WrappedCommand.run, hf, hs, hsb, exit_with_status, hk]

/-- Witness for C3: a child exiting with code 3 terminates the host with
code 3, and a signal-killed child (no code) terminates it with code 1. -/
theorem wrapped_run_exit_semantics_witness :
    (WrappedCommand.run ⟨[120]⟩ Except.ok (fun _ => Except.ok ⟨some 3⟩) =
      .exited ⟨[120], [], []⟩ (runDiagnostic ⟨[120], [], []⟩ ⟨some 3⟩) 3) ∧
    (WrappedCommand.run ⟨[120]⟩ Except.ok (fun _ => Except.ok ⟨none⟩) =
      .exited ⟨[120], [], []⟩ (runDiagnostic ⟨[120], [], []⟩ ⟨none⟩) 1) := by
  constructor
  · exact (wrapped_run_exit_semantics ⟨[120]⟩ Except.ok
      (fun _ => Except.ok ⟨some 3⟩)).2.1 ⟨[120], [], []⟩ ⟨some 3⟩ 3 rfl rfl rfl
      (by decide)
  · exact (wrapped_run_exit_semantics ⟨[120]⟩ Except.ok
      (fun _ => Except.ok ⟨none⟩)).2.2 ⟨[120], [], []⟩ ⟨none⟩ rfl rfl rfl

/-- C6: toolchain selection stores `toolchain.channel = "X"` as the
`RUSTUP_TOOLCHAIN` binding when the document parses and the field is a
string; when it parses but the field is absent or not a string the selection
is left unchanged (no error); a document syntax error propagates as an
error. -/
theorem set_rustup_toolchain_selection (parse : String → Except String TomlItem)
    (w : CargoWrapper) (s : String) :
    (∀ doc ch, parse s = .ok doc →
      (doc.index "toolchain").index "channel" = .str ch →
      CargoWrapper.set_rustup_toolchain parse w s =
        .ok { w with toolchain := some ⟨TOOLCHAIN_VAR, ch⟩ }) ∧
    (∀ doc, parse s = .ok doc →
      ((doc.index "toolchain").index "channel").asStr = none →
      CargoWrapper.set_rustup_toolchain parse w s = .ok w) ∧
    (∀ e, parse s = .error e →
      CargoWrapper.set_rustup_toolchain parse w s = .error e) := by
  refine ⟨?_, ?_, ?_⟩
  · intro doc ch hp hch
    simp [CargoWrapper.set_rustup_toolchain, hp, hch, TomlItem.asStr]
  · intro doc hp hch
    simp [CargoWrapper.set_rustup_toolchain, hp, hch]
  · intro e hp
    simp [CargoWrapper.set_rustup_toolchain, hp]

/-- Witness for C6 on concrete documents: a table with
`toolchain.channel = "nightly-2022-08-08"` selects that channel; a table
without the field leaves the selection `none`; a parse failure propagates. -/
theorem set_rustup_toolchain_selection_witness :
    (CargoWrapper.set_rustup_toolchain
        (fun _ => .ok (.table [("toolchain", .table [("channel", .str "nightly-2022-08-08")])]))
        ⟨⟨"RUSTC_WRAPPER", [7]⟩, ⟨"RUST_SYSROOT", [2]⟩, none⟩ "doc" =
      .ok ⟨⟨"RUSTC_WRAPPER", [7]⟩, ⟨"RUST_SYSROOT", [2]⟩,
        some ⟨TOOLCHAIN_VAR, "nightly-2022-08-08"⟩⟩) ∧
    (CargoWrapper.set_rustup_toolchain (fun _ => .ok (.table []))
        ⟨⟨"RUSTC_WRAPPER", [7]⟩, ⟨"RUST_SYSROOT", [2]⟩, none⟩ "doc" =
      .ok ⟨⟨"RUSTC_WRAPPER", [7]⟩, ⟨"RUST_SYSROOT", [2]⟩, none⟩) ∧
    (CargoWrapper.set_rustup_toolchain (fun _ => .error "TOML parse error")
        ⟨⟨"RUSTC_WRAPPER", [7]⟩, ⟨"RUST_SYSROOT", [2]⟩, none⟩ "broken toml" =
      .error "TOML parse error") := by
  refine ⟨?_, ?_, ?_⟩
  · exact (set_rustup_toolchain_selection
      (fun _ => .ok (.table [("toolchain", .table [("channel", .str "nightly-2022-08-08")])]))
      ⟨⟨"RUSTC_WRAPPER", [7]⟩, ⟨"RUST_SYSROOT", [2]⟩, none⟩ "doc").1
      (.table [("toolchain", .table [("channel", .str "nightly-2022-08-08")])])
      "nightly-2022-08-08" rfl rfl
  · exact (set_rustup_toolchain_selection (fun _ => .ok (.table []))
      ⟨⟨"RUSTC_WRAPPER", [7]⟩, ⟨"RUST_SYSROOT", [2]⟩, none⟩ "doc").2.1
      (.table []) rfl rfl
  · exact (set_rustup_toolchain_selection (fun _ => .error "TOML parse error")
      ⟨⟨"RUSTC_WRAPPER", [7]⟩, ⟨"RUST_SYSROOT", [2]⟩, none⟩ "broken toml").2.2
      "TOML parse error" rfl

/-- C10: `is_primary_package` is true exactly when `CARGO_PRIMARY_PACKAGE` is
present, for every value including the empty one; the value is never
inspected and the check is total. -/
theorem is_primary_package_presence (w : RustcWrapper) (env : Env) :
    (w.is_primary_package env = true ↔ ∃ v, env "CARGO_PRIMARY_PACKAGE" = some v) ∧
    (∀ v : OsStr, w.is_primary_package
      (fun k => if k = "CARGO_PRIMARY_PACKAGE" then some v else env k) = true) := by
  constructor
  · unfold RustcWrapper.is_primary_package EnvVar.get_os
    cases h : env "CARGO_PRIMARY_PACKAGE" <;> simp [h]
  · intro v
    unfold RustcWrapper.is_primary_package EnvVar.get_os
    simp

/-- Witness for C10: the empty value still counts as present. -/
theorem is_primary_package_presence_witness :
    RustcWrapper.is_primary_package ⟨[], ⟨"RUST_SYSROOT", [2]⟩⟩
      (fun k => if k = "CARGO_PRIMARY_PACKAGE" then some [] else none) = true :=
  (is_primary_package_presence ⟨[], ⟨"RUST_SYSROOT", [2]⟩⟩ (fun _ => none)).2 []

/-- `os_str_from_bytes` never changes the bytes it accepts. -/
lemma os_str_from_bytes_ok {u : Bool} {b p : OsStr}
    (h : os_str_from_bytes u b = .ok p) : p = b := by
  unfold os_str_from_bytes at h
  split_ifs at h
  · injection h with h; exact h.symm
  · injection h with h; exact h.symm

/-- C5: `resolve_sysroot` probes the driver with exactly `--print sysroot`,
takes the first whitespace-delimited token of the captured stdout by a
byte-level split, converts it zero-copy on unix and through UTF-8 validation
elsewhere (failing on invalid bytes), and rejects a token that is not an
existing directory even though the probe's exit status (including a
successful one) is never consulted. -/
theorem resolve_sysroot_first_token_dir (isUnix : Bool) (env : Env)
    (output : Cmd → Except String CmdOutput) (is_dir : OsStr → Bool)
    (out : CmdOutput) (tok : OsStr)
    (hout : output (rustcSysrootProbe env) = .ok out)
    (htok : tok = ((splitBytes isAsciiWhitespaceByte out.stdout).head?).getD []) :
    ((rustcSysrootProbe env).args = [osStrOfString "--print", osStrOfString "sysroot"]) ∧
    (os_str_from_bytes true tok = .ok tok) ∧
    (isUnix = false → utf8Decode tok = none →
      resolve_sysroot isUnix env output is_dir = .error "invalid utf-8 sequence") ∧
    (os_str_from_bytes isUnix tok = .ok tok → is_dir tok = true →
      resolve_sysroot isUnix env output is_dir = .ok tok) ∧
    (is_dir tok = false → ∃ e, resolve_sysroot isUnix env output is_dir = .error e) := by
  refine ⟨rfl, by simp [os_str_from_bytes], ?_, ?_, ?_⟩
  · intro hu hdec
    subst hu
    simp [resolve_sysroot, hout, ← htok, os_str_from_bytes, hdec]
  · intro hconv hdir
    simp [resolve_sysroot, hout, ← htok, hconv, hdir]
  · intro hdir
    cases hc : os_str_from_bytes isUnix tok with
    | error e =>
      refine ⟨e, ?_⟩
      simp [resolve_sysroot, hout, ← htok, hc]
    | ok p =>
      have hp : p = tok := os_str_from_bytes_ok hc
      rw [hp] at hc
      refine ⟨"invalid sysroot (not a dir): " ++ (osStrIntoString tok).getD "", ?_⟩
      simp [resolve_sysroot, hout, ← htok, hc, hdir]

/-- Witness for C5: stdout `/a b` (with a successful probe status) yields the
token `/a`; it resolves when `/a` is a directory and errors when it is not. -/
theorem resolve_sysroot_first_token_dir_witness :
    (resolve_sysroot true (fun _ => none)
      (fun _ => .ok ⟨⟨some 0⟩, [47, 97, 32, 98]⟩) (fun p => p == [47, 97]) =
      .ok [47, 97]) ∧
    (∃ e, resolve_sysroot true (fun _ => none)
      (fun _ => .ok ⟨⟨some 0⟩, [47, 97, 32, 98]⟩) (fun _ => false) = .error e) := by
  constructor
  · exact (resolve_sysroot_first_token_dir true (fun _ => none)
      (fun _ => .ok ⟨⟨some 0⟩, [47, 97, 32, 98]⟩) (fun p => p == [47, 97])
      ⟨⟨some 0⟩, [47, 97, 32, 98]⟩ [47, 97] rfl (by decide)).2.2.2.1 rfl (by decide)
  · exact (resolve_sysroot_first_token_dir true (fun _ => none)
      (fun _ => .ok ⟨⟨some 0⟩, [47, 97, 32, 98]⟩) (fun _ => false)
      ⟨⟨some 0⟩, [47, 97, 32, 98]⟩ [47, 97] rfl (by decide)).2.2.2.2 rfl

/-- Converting a list of OS strings that all decode as UTF-8 succeeds with
the decoded strings. -/
lemma collectUtf8Strings_ok : ∀ {l : List OsStr} {ss : List String},
    l.map osStrIntoString = ss.map some → collectUtf8Strings l = .ok ss := by
  intro l
  induction l with
  | nil =>
    intro ss h
    simp only [List.map_nil] at h
    have : ss = [] := by
      cases ss with
      | nil => rfl
      | cons s ss => simp at h
    subst this
    rfl
  | cons a l ih =>
    intro ss h
    cases ss with
    | nil => simp at h
    | cons s ss =>
      simp only [List.map_cons, List.cons.injEq] at h
      obtain ⟨ha, hl⟩ := h
      unfold collectUtf8Strings
      rw [ha, ih hl]

/-- Converting a list of OS strings one of which is not UTF-8 fails. -/
lemma collectUtf8Strings_err : ∀ {l : List OsStr},
    (∃ a ∈ l, osStrIntoString a = none) →
    ∃ e, collectUtf8Strings l = .error e := by
  intro l
  induction l with
  | nil => intro h; simp at h
  | cons a l ih =>
    intro h
    cases ha : osStrIntoString a with
    | none =>
      refine ⟨os_string_utf8_error a, ?_⟩
      unfold collectUtf8Strings
      rw [ha]
    | some s =>
      have hl : ∃ b ∈ l, osStrIntoString b = none := by
        obtain ⟨b, hb, hbn⟩ := h
        cases hb with
        | head => rw [ha] at hbn; exact Option.noConfusion hbn
        | tail _ hb => exact ⟨b, hb, hbn⟩
      obtain ⟨e, he⟩ := ih hl
      refine ⟨e, ?_⟩
      unfold collectUtf8Strings
      rw [ha, he]

/-- C9: the forwarded argument lists end with the sysroot injection. The
stored arguments are argv minus the program name; `rustc_args_os` totally
appends exactly `--sysroot <sysroot>`; `rustc_args` yields the decoded
arguments with `--sysroot <sysroot>` appended when everything is UTF-8, and
fails when any argument or the sysroot path is not valid UTF-8. -/
theorem rustc_args_sysroot_appended (w : RustcWrapper) :
    (w.rustc_args_os = w.args ++ [osStrOfString "--sysroot", w.sysroot.value]) ∧
    (∀ env argv, RustcWrapper.new env argv = .ok w → w.args = argv.drop 1) ∧
    (∀ ss t, w.args.map osStrIntoString = ss.map some →
      osStrIntoString w.sysroot.value = some t →
      w.rustc_args = .ok (ss ++ ["--sysroot", t])) ∧
    (((∃ a ∈ w.args, osStrIntoString a = none) ∨
        osStrIntoString w.sysroot.value = none) →
      ∃ e, w.rustc_args = .error e) := by
  refine ⟨rfl, ?_, ?_, ?_⟩
  · intro env argv h
    unfold RustcWrapper.new at h
    cases he : EnvVar.get_path env SYSROOT_VAR with
    | none => rw [he] at h; exact Except.noConfusion h
    | some sysroot =>
      rw [he] at h
      injection h with h
      rw [← h]
  · intro ss t hss ht
    unfold RustcWrapper.rustc_args
    rw [collectUtf8Strings_ok hss]
    simp [ht]
  · intro hbad
    cases hbad with
    | inl hss =>
      obtain ⟨e, he⟩ := collectUtf8Strings_err hss
      refine ⟨e, ?_⟩
      unfold RustcWrapper.rustc_args
      rw [he]
    | inr ht =>
      cases hc : collectUtf8Strings w.args with
      | error e =>
        refine ⟨e, ?_⟩
        unfold RustcWrapper.rustc_args
        rw [hc]
      | ok ss =>
        refine ⟨os_string_utf8_error w.sysroot.value, ?_⟩
        unfold RustcWrapper.rustc_args
        rw [hc]
        simp [ht]

/-- Witness for C9: with stored argument `A` and sysroot `/s`, `rustc_args`
is `["A", "--sysroot", "/s"]` and `rustc_args_os` appends the same two items;
the stored arguments of a wrapper built from argv drop the program name; a
non-UTF-8 argument byte `0xFF` makes `rustc_args` fail. -/
theorem rustc_args_sysroot_appended_witness :
    (RustcWrapper.rustc_args ⟨[[65]], ⟨"RUST_SYSROOT", [47, 115]⟩⟩ =
      .ok ["A", "--sysroot", "/s"]) ∧
    (RustcWrapper.rustc_args_os ⟨[[65]], ⟨"RUST_SYSROOT", [47, 115]⟩⟩ =
      [[65], osStrOfString "--sysroot", [47, 115]]) ∧
    (RustcWrapper.args ⟨[[65]], ⟨"RUST_SYSROOT", [47, 115]⟩⟩ =
      List.drop 1 [[99], [65]]) ∧
    (∃ e, RustcWrapper.rustc_args ⟨[[255]], ⟨"RUST_SYSROOT", [47, 115]⟩⟩ =
      .error e) := by
  refine ⟨?_, ?_, ?_, ?_⟩
  · exact (rustc_args_sysroot_appended ⟨[[65]], ⟨"RUST_SYSROOT", [47, 115]⟩⟩).2.2.1
      ["A"] "/s" (by decide) (by decide)
  · exact (rustc_args_sysroot_appended ⟨[[65]], ⟨"RUST_SYSROOT", [47, 115]⟩⟩).1
  · exact (rustc_args_sysroot_appended ⟨[[65]], ⟨"RUST_SYSROOT", [47, 115]⟩⟩).2.1
      (fun k => if k = "RUST_SYSROOT" then some [47, 115] else none) [[99], [65]]
      rfl
  · exact (rustc_args_sysroot_appended ⟨[[255]], ⟨"RUST_SYSROOT", [47, 115]⟩⟩).2.2.2
      (Or.inl ⟨[255], by decide, by decide⟩)

/-- C7: the bindings the package-manager role establishes for the nested
invocation are attached to the spawned child command object (given a
configure closure that only extends the child environment, the spawned
command carries the `RUSTC_WRAPPER`, `RUST_SYSROOT` and `RUSTUP_TOOLCHAIN`
entries), and the calling process's own environment comes back from
`run_cargo` and `run_cargo_with_rustc_wrapper` unchanged. -/
theorem run_cargo_child_env_only (w : CargoWrapper) (env : Env)
    (f : Cmd → Except String Cmd) (status : Cmd → Except String ExitStatus)
    (t : EnvVar String) (cmd : Cmd)
    (htc : w.toolchain = some t)
    (hf : ∀ c c', f c = .ok c' → ∀ kv, kv ∈ c.extraEnv → kv ∈ c'.extraEnv)
    (hcmd : (w.run_cargo_with_rustc_wrapper env f status).1.spawnedCmd = some cmd) :
    ((w.run_cargo_with_rustc_wrapper env f status).2 = env) ∧
    ((w.run_cargo env f status).2 = env) ∧
    ((w.rustc_wrapper.key, w.rustc_wrapper.value) ∈ cmd.extraEnv) ∧
    ((w.sysroot.key, w.sysroot.value) ∈ cmd.extraEnv) ∧
    ((t.key, osStrOfString t.value) ∈ cmd.extraEnv) := by
  refine ⟨rfl, rfl, ?_⟩
  unfold CargoWrapper.run_cargo_with_rustc_wrapper CargoWrapper.run_cargo
    WrappedCommand.run at hcmd
  rw [htc] at hcmd
  simp only [] at hcmd
  have h2 : (EnvVar.set_on w.sysroot (EnvVar.set_on w.rustc_wrapper
      (EnvVar.set_on t (WrappedCommand.cargo env).command))).extraEnv =
      [(t.key, osStrOfString t.value),
        (w.rustc_wrapper.key, w.rustc_wrapper.value),
        (w.sysroot.key, w.sysroot.value)] := rfl
  cases hfc : f (EnvVar.set_on w.sysroot (EnvVar.set_on w.rustc_wrapper
      (EnvVar.set_on t (WrappedCommand.cargo env).command))) with
  | error e =>
    rw [hfc] at hcmd
    simp [RunResult.spawnedCmd] at hcmd
  | ok c2 =>
    rw [hfc] at hcmd
    simp only [] at hcmd
    have hmem := hf _ c2 hfc
    rw [h2] at hmem
    have hcc : c2 = cmd := by
      cases hst : status c2 with
      | error e =>
        rw [hst] at hcmd
        simpa [RunResult.spawnedCmd] using hcmd
      | ok st =>
        rw [hst] at hcmd
        by_cases hs : st.success = true <;>
          simpa [hs, RunResult.spawnedCmd] using hcmd
    subst hcc
    refine ⟨?_, ?_, ?_⟩
    · exact hmem _ (by simp)
    · exact hmem _ (by simp)
    · exact hmem _ (by simp)

/-- Witness for C7 at concrete inputs: the spawned `cargo` command carries
all three bindings in its child environment, and the caller environment is
returned unchanged. -/
theorem run_cargo_child_env_only_witness :
    ((CargoWrapper.run_cargo_with_rustc_wrapper
        ⟨⟨"RUSTC_WRAPPER", [7]⟩, ⟨"RUST_SYSROOT", [2]⟩, some ⟨"RUSTUP_TOOLCHAIN", "t"⟩⟩
        (fun _ => none) Except.ok (fun _ => .ok ⟨some 0⟩)).2 = (fun _ => none)) ∧
    (("RUSTC_WRAPPER", ([7] : OsStr)) ∈
      (⟨osStrOfString "cargo", [],
        [("RUSTUP_TOOLCHAIN", osStrOfString "t"), ("RUSTC_WRAPPER", [7]),
          ("RUST_SYSROOT", [2])]⟩ : Cmd).extraEnv) ∧
    (("RUST_SYSROOT", ([2] : OsStr)) ∈
      (⟨osStrOfString "cargo", [],
        [("RUSTUP_TOOLCHAIN", osStrOfString "t"), ("RUSTC_WRAPPER", [7]),
          ("RUST_SYSROOT", [2])]⟩ : Cmd).extraEnv) ∧
    (("RUSTUP_TOOLCHAIN", osStrOfString "t") ∈
      (⟨osStrOfString "cargo", [],
        [("RUSTUP_TOOLCHAIN", osStrOfString "t"), ("RUSTC_WRAPPER", [7]),
          ("RUST_SYSROOT", [2])]⟩ : Cmd).extraEnv) := by
  obtain ⟨he, _, m1, m2, m3⟩ := run_cargo_child_env_only
    ⟨⟨"RUSTC_WRAPPER", [7]⟩, ⟨"RUST_SYSROOT", [2]⟩, some ⟨"RUSTUP_TOOLCHAIN", "t"⟩⟩
    (fun _ => none) Except.ok (fun _ => .ok ⟨some 0⟩)
    ⟨"RUSTUP_TOOLCHAIN", "t"⟩
    ⟨osStrOfString "cargo", [],
      [("RUSTUP_TOOLCHAIN", osStrOfString "t"), ("RUSTC_WRAPPER", [7]),
        ("RUST_SYSROOT", [2])]⟩
    rfl
    (fun c c' h kv hkv => by injection h with h; exact h ▸ hkv)
    rfl
  exact ⟨he, m1, m2, m3⟩

/-- The derived temporary file name is never the final file name (it is
strictly longer). -/
lemma tmp_name_ne (name rand : String) : name ++ "." ++ rand ++ ".new" ≠ name := by
  intro h
  have hlen := congrArg String.length h
  rw [String.length_append, String.length_append, String.length_append] at hlen
  have e1 : String.length "." = 1 := rfl
  have e2 : String.length ".new" = 4 := rfl
  rw [e1, e2] at hlen
  omega

/-- The final path never coincides with the derived temporary path. -/
lemma path_ne_tmp {path : FPath} {name rand : String}
    (hname : path.fileName = some name) :
    path ≠ path.dropLast ++ [name ++ "." ++ rand ++ ".new"] := by
  have hlast : path.getLast? = some name := by
    unfold FPath.fileName at hname
    cases hg : path.getLast? with
    | none => rw [hg] at hname; exact Option.noConfusion hname
    | some s =>
      rw [hg] at hname
      simp only [] at hname
      split_ifs at hname
      injection hname with hname
      rw [hname]
  intro h
  have h2 : (path.dropLast ++ [name ++ "." ++ rand ++ ".new"]).getLast? =
      some (name ++ "." ++ rand ++ ".new") := List.getLast?_concat _
  rw [← h, hlast] at h2
  injection h2 with h2
  exact tmp_name_ne name rand h2.symm

/-- Characterization of a successful `MetadataFile::new`: the final path has
a file name, the handle records the final path and the derived temporary
sibling path, the new filesystem is the old one with the parent directory
created and an empty file at the temporary path, and the temporary path was
previously unoccupied. -/
lemma metadata_new_ok {fs : FS} {path : FPath} {rand : String} {fs1 : FS}
    {m : MetadataFile} (h : MetadataFile.new fs path rand = .ok (fs1, m)) :
    ∃ name, path.fileName = some name ∧
      m.path = path ∧
      m.tmpPath = path.dropLast ++ [name ++ "." ++ rand ++ ".new"] ∧
      fs1 = (fs.createDirAll path.dropLast).writeFile m.tmpPath [] ∧
      fs.file m.tmpPath = none := by
  unfold MetadataFile.new at h
  cases hname : path.fileName with
  | none => rw [hname] at h; exact Except.noConfusion h
  | some name =>
    rw [hname] at h
    have hne : ¬ path.isEmpty = true := by
      intro hp
      rw [List.isEmpty_iff] at hp
      subst hp
      simp [FPath.fileName] at hname
    have hpd : path.parentDir = some path.dropLast := by
      unfold FPath.parentDir
      simp [hne]
    rw [hpd] at h
    simp only [Option.getD_some] at h
    by_cases hex : (fs.createDirAll path.dropLast).file
        (path.dropLast ++ [name ++ "." ++ rand ++ ".new"]) = none
    · rw [if_neg (by simp [hex])] at h
      injection h with h
      injection h with hfs hm
      refine ⟨name, rfl, ?_, ?_, ?_, ?_⟩
      · rw [← hm]
      · rw [← hm]
      · rw [← hfs, ← hm]
      · rw [← hm]
        simpa [FS.createDirAll] using hex
    · rw [if_pos (by simpa [Option.isSome_iff_ne_none] using hex)] at h
      exact Except.noConfusion h

/-- C8: for a final path with a file name, `MetadataFile::new` creates the
parent directory, creates the temporary file as a sibling in the same
directory as the final path, named with the final file's name followed by
`.` as a prefix and the distinguishing `<random>.new` suffix, and leaves the
final path itself untouched. -/
theorem metadata_new_postcondition (fs : FS) (path : FPath) (rand : String)
    (fs1 : FS) (m : MetadataFile)
    (h : MetadataFile.new fs path rand = .ok (fs1, m)) :
    ∃ name, path.fileName = some name ∧
      m.path = path ∧
      m.tmpPath.dropLast = path.dropLast ∧
      (∀ d, path.parentDir = some d → fs1.dirs d = true) ∧
      m.tmpPath = path.dropLast ++ [(name ++ ".") ++ (rand ++ ".new")] ∧
      fs1.file path = fs.file path := by
  obtain ⟨name, hname, hmp, hmt, hfs1, hfresh⟩ := metadata_new_ok h
  have hne : path ≠ m.tmpPath := by rw [hmt]; exact path_ne_tmp hname
  refine ⟨name, hname, hmp, ?_, ?_, ?_, ?_⟩
  · rw [hmt, List.dropLast_concat]
  · intro d hd
    have hdd : d = path.dropLast := by
      unfold FPath.parentDir at hd
      split_ifs at hd
      injection hd with hd
      exact hd.symm
    subst hdd
    rw [hfs1]
    simp [FS.writeFile, FS.createDirAll, List.isPrefixOf_iff_prefix]
  · rw [hmt]
    simp [String.append_assoc]
  · rw [hfs1]
    simp [FS.writeFile, FS.createDirAll, hne]

/-- C4: after a successful `new`, if the temporary file holds exactly the
bytes `data` when `close` is called, then `close` succeeds and: for
non-empty `data` the final path holds exactly those bytes and the temporary
path is gone; for empty `data` the final path is exactly as it was before
`new` was called (a pre-existing file untouched, an absent one still
absent), and the temporary file is discarded. -/
theorem metadata_close_postcondition (fs : FS) (path : FPath) (rand : String)
    (fs1 : FS) (m : MetadataFile) (data : List Nat)
    (hnew : MetadataFile.new fs path rand = .ok (fs1, m)) :
    ∃ fs3, MetadataFile.close (fs1.writeFile m.tmpPath data) m = .ok fs3 ∧
      (data ≠ [] → fs3.file path = some data ∧ fs3.file m.tmpPath = none) ∧
      (data = [] → fs3.file path = fs.file path ∧ fs3.file m.tmpPath = none) := by
  obtain ⟨name, hname, hmp, hmt, hfs1, hfresh⟩ := metadata_new_ok hnew
  have hne : path ≠ m.tmpPath := by rw [hmt]; exact path_ne_tmp hname
  have h2t : (fs1.writeFile m.tmpPath data).file m.tmpPath = some data := by
    simp [FS.writeFile]
  have hclose : MetadataFile.close (fs1.writeFile m.tmpPath data) m =
      (if data.length > 0 then
        .ok ((fs1.writeFile m.tmpPath data).rename m.tmpPath m.path)
      else .ok ((fs1.writeFile m.tmpPath data).removeFile m.tmpPath)) := by
    unfold MetadataFile.close
    rw [h2t]
  cases data with
  | nil =>
    rw [if_neg (by simp)] at hclose
    refine ⟨_, hclose, fun hc => absurd rfl hc, fun _ => ⟨?_, ?_⟩⟩
    · simp [FS.removeFile, FS.writeFile, hne, hfs1, FS.createDirAll]
    · simp [FS.removeFile]
  | cons b rest =>
    rw [if_pos (by simp)] at hclose
    refine ⟨_, hclose, fun _ => ⟨?_, ?_⟩, fun hc => absurd hc (by simp)⟩
    · simp [FS.rename, hmp, FS.writeFile]
    · simp [FS.rename, hmp, hne.symm]

/-- Witness for C8 at concrete inputs: opening `d/meta` creates directory
`d`, puts an empty temporary file at `d/meta.R.new`, and does not create
`d/meta`. -/
theorem metadata_new_postcondition_witness :
    ((((⟨fun _ => none, fun _ => false⟩ : FS).createDirAll ["d"]).writeFile
        ["d", "meta.R.new"] []).dirs ["d"] = true) ∧
    ((((⟨fun _ => none, fun _ => false⟩ : FS).createDirAll ["d"]).writeFile
        ["d", "meta.R.new"] []).file ["d", "meta"] = none) ∧
    (MetadataFile.tmpPath ⟨["d", "meta"], ["d", "meta.R.new"]⟩ =
      List.dropLast ["d", "meta"] ++ [("meta" ++ ".") ++ ("R" ++ ".new")]) := by
  obtain ⟨name, hname, hmp, hdl, hdirs, hmt, hfile⟩ :=
    metadata_new_postcondition ⟨fun _ => none, fun _ => false⟩ ["d", "meta"] "R" _
      ⟨["d", "meta"], ["d", "meta.R.new"]⟩ rfl
  have hn : name = "meta" := by
    have hm2 : FPath.fileName ["d", "meta"] = some "meta" := rfl
    injection (hm2.symm.trans hname) with h2
    exact h2.symm
  rw [hn] at hmt
  exact ⟨hdirs ["d"] rfl, hfile, hmt⟩

/-- Witness for C4 at concrete inputs: closing with two bytes written moves
them to `d/meta` and removes the temporary file; closing with nothing
written leaves `d/meta` absent and removes the temporary file. -/
theorem metadata_close_postcondition_witness :
    (∃ fs3, MetadataFile.close
        ((((⟨fun _ => none, fun _ => false⟩ : FS).createDirAll ["d"]).writeFile
          ["d", "meta.R.new"] []).writeFile ["d", "meta.R.new"] [1, 2])
        ⟨["d", "meta"], ["d", "meta.R.new"]⟩ = .ok fs3 ∧
      fs3.file ["d", "meta"] = some [1, 2] ∧ fs3.file ["d", "meta.R.new"] = none) ∧
    (∃ fs4, MetadataFile.close
        ((((⟨fun _ => none, fun _ => false⟩ : FS).createDirAll ["d"]).writeFile
          ["d", "meta.R.new"] []).writeFile ["d", "meta.R.new"] [])
        ⟨["d", "meta"], ["d", "meta.R.new"]⟩ = .ok fs4 ∧
      fs4.file ["d", "meta"] = none ∧ fs4.file ["d", "meta.R.new"] = none) := by
  constructor
  · obtain ⟨fs3, hc, hpos, _⟩ :=
      metadata_close_postcondition ⟨fun _ => none, fun _ => false⟩ ["d", "meta"] "R" _
        ⟨["d", "meta"], ["d", "meta.R.new"]⟩ [1, 2] rfl
    obtain ⟨h1, h2⟩ := hpos (by simp)
    exact ⟨fs3, hc, h1, h2⟩
  · obtain ⟨fs4, hc, _, hnil⟩ :=
      metadata_close_postcondition ⟨fun _ => none, fun _ => false⟩ ["d", "meta"] "R" _
        ⟨["d", "meta"], ["d", "meta.R.new"]⟩ [] rfl
    obtain ⟨h1, h2⟩ := hnil rfl
    exact ⟨fs4, hc, h1, h2⟩
